import Mathlib

/-!
Verification development for the 2D carrier/aircraft steering simulator
(`src/game_cpp/game.cpp`).  The C++ code is shallowly embedded over the real
numbers: `Vector2` becomes `Vec2` with real components, the `Aircraft` and
`Ship` member functions become pure functions on explicit state records, and
the player-driven event loop becomes a step function over an event list.
-/

namespace Game

noncomputable section

open Real

/-- Two-dimensional vector with members `x`, `y` (class `Vector2` of the source,
floats modelled as reals). -/
@[ext]
structure Vec2 where
  x : ℝ
  y : ℝ

instance : Add Vec2 := ⟨fun a b => ⟨a.x + b.x, a.y + b.y⟩⟩

instance : Sub Vec2 := ⟨fun a b => ⟨a.x - b.x, a.y - b.y⟩⟩

instance : Neg Vec2 := ⟨fun a => ⟨-a.x, -a.y⟩⟩

instance : SMul ℝ Vec2 := ⟨fun c v => ⟨c * v.x, c * v.y⟩⟩

@[simp] theorem Vec2.add_x (a b : Vec2) : (a + b).x = a.x + b.x := rfl

@[simp] theorem Vec2.add_y (a b : Vec2) : (a + b).y = a.y + b.y := rfl

@[simp] theorem Vec2.sub_x (a b : Vec2) : (a - b).x = a.x - b.x := rfl

@[simp] theorem Vec2.sub_y (a b : Vec2) : (a - b).y = a.y - b.y := rfl

@[simp] theorem Vec2.neg_x (a : Vec2) : (-a).x = -a.x := rfl

@[simp] theorem Vec2.neg_y (a : Vec2) : (-a).y = -a.y := rfl

@[simp] theorem Vec2.smul_x (c : ℝ) (v : Vec2) : (c • v).x = c * v.x := rfl

@[simp] theorem Vec2.smul_y (c : ℝ) (v : Vec2) : (c • v).y = c * v.y := rfl

/-- `Vector2::get_length`: `sqrt(x*x + y*y)`. -/
def Vec2.get_length (v : Vec2) : ℝ := Real.sqrt (v.x * v.x + v.y * v.y)

/-- `Vector2::get_normalized`: componentwise division by the length. -/
def Vec2.get_normalized (v : Vec2) : Vec2 :=
  ⟨v.x / v.get_length, v.y / v.get_length⟩

/-- `Vector2::get_rotated`: `(cos a * x - sin a * y, sin a * x + cos a * y)`. -/
def Vec2.get_rotated (v : Vec2) (angle : ℝ) : Vec2 :=
  ⟨Real.cos angle * v.x - Real.sin angle * v.y,
   Real.sin angle * v.x + Real.cos angle * v.y⟩

/-- `Vector2::dot`: dot product of the two NORMALIZED inputs (the source's
deliberate naming quirk); equals the cosine of the angle between them. -/
def Vec2.dot (lhv rhv : Vec2) : ℝ :=
  (lhv.get_normalized).x * (rhv.get_normalized).x +
    (lhv.get_normalized).y * (rhv.get_normalized).y

/-- Two-argument arctangent (the C library `atan2` used by the source). -/
def Vec2.atan2 (y x : ℝ) : ℝ :=
  if 0 < x then Real.arctan (y / x)
  else if x < 0 then
    (if 0 ≤ y then Real.arctan (y / x) + Real.pi else Real.arctan (y / x) - Real.pi)
  else
    (if 0 < y then Real.pi / 2 else if y < 0 then -(Real.pi / 2) else 0)

/-- `Vector2::angle_rad`: `-atan2(cross, dot)` of the normalized inputs. -/
def Vec2.angle_rad (lhv rhv : Vec2) : ℝ :=
  -(Vec2.atan2
      ((lhv.get_normalized).x * (rhv.get_normalized).y -
        (lhv.get_normalized).y * (rhv.get_normalized).x)
      ((lhv.get_normalized).x * (rhv.get_normalized).x +
        (lhv.get_normalized).y * (rhv.get_normalized).y))

/-- Raw 2D dot product, used to express perpendicularity of vectors. -/
def Vec2.inner (lhv rhv : Vec2) : ℝ := lhv.x * rhv.x + lhv.y * rhv.y

namespace params

namespace ship

def LINEAR_SPEED : ℝ := 0.5

def ANGULAR_SPEED : ℝ := 0.5

def SIZE : ℝ := 0.2

def REFILL_TIME : ℝ := 10

end ship

namespace aircraft

def TARGET_RADIUS : ℝ := 1.5

def LINEAR_ACCELERATION : ℝ := 0.3

def LINEAR_SPEED : ℝ := 2.5

def ANGULAR_SPEED : ℝ := 2.5

def TAKEOFF_TIME : ℝ := 3

def LIVE_TIME : ℝ := 50

def LANDING_SPEED : ℝ := LINEAR_SPEED / 1.5

end aircraft

end params

/-- `calculate_landing_radius`: worst-case 180-degree-turn travel plus the
triangular slowdown integral. -/
def calculate_landing_radius : ℝ :=
  let ROTATION_TIME := Real.pi / params.aircraft.ANGULAR_SPEED
  let SLOWDOWN_TIME :=
    (params.aircraft.LINEAR_SPEED - params.aircraft.LANDING_SPEED) /
      params.aircraft.LINEAR_ACCELERATION
  let ROTATION_TRAVEL := ROTATION_TIME * params.aircraft.LINEAR_SPEED
  let SLOWDOWN_TRAVEL :=
    (params.aircraft.LINEAR_SPEED - params.aircraft.LANDING_SPEED) *
      SLOWDOWN_TIME / 2
  ROTATION_TRAVEL + SLOWDOWN_TRAVEL

/-- State of one `Aircraft` (mesh handle omitted; placements are reported in
the update's result instead). -/
structure Aircraft where
  m_position : Vec2
  m_angle : ℝ
  m_linear_velocity : Vec2
  m_live_time : ℝ

/-- Read-only ship/goal context an `Aircraft` update consumes
(`game::ship.get_position()`, `game::ship.get_angle()`, `game::s_goal_position`). -/
structure Env where
  ship_position : Vec2
  ship_angle : ℝ
  s_goal_position : Vec2

namespace Aircraft

def LANDING_RADIUS : ℝ := calculate_landing_radius

/-- `Aircraft::get_intersection`: direct 2x2 solve of
`position_1 + vector_1 * n = position_2 + vector_2 * k`. -/
def get_intersection (position_1 vector_1 position_2 vector_2 : Vec2) : Vec2 :=
  let k := (position_2.y - position_1.y -
      ((vector_1.y / vector_1.x) * (position_2.x - position_1.x))) /
    ((vector_1.y * vector_2.x / vector_1.x) - vector_2.y)
  ⟨position_2.x + vector_2.x * k, position_2.y + vector_2.y * k⟩

/-- `Aircraft::calculate_target_destination`: orbit waypoint around the goal. -/
def calculate_target_destination (env : Env) (a : Aircraft) : Vec2 :=
  let target_vector := env.s_goal_position - a.m_position
  let goal_position := env.s_goal_position +
    params.aircraft.TARGET_RADIUS •
      (target_vector.get_rotated (Real.pi / 2)).get_normalized
  goal_position - a.m_position

/-- `Aircraft::calculate_landing_destination`: three-phase landing approach. -/
def calculate_landing_destination (env : Env) (a : Aircraft) : Vec2 :=
  let ship_forward := (Vec2.mk 1 0).get_rotated env.ship_angle
  let ship_forward_normal := ship_forward.get_rotated (Real.pi / 2)
  let intersection :=
    get_intersection env.ship_position ship_forward a.m_position ship_forward_normal
  let length_to_intersection := (intersection - a.m_position).get_length
  if length_to_intersection > 0.01 then
    if length_to_intersection > LANDING_RADIUS then
      intersection + LANDING_RADIUS • (a.m_position - intersection).get_normalized -
        a.m_position
    else
      intersection +
        LANDING_RADIUS • (env.ship_position - intersection).get_normalized -
        a.m_position
  else
    env.ship_position - a.m_position

/-- `Aircraft::calculate_destination`: landing law after `LIVE_TIME`, orbit law
before. -/
def calculate_destination (env : Env) (a : Aircraft) : Vec2 :=
  if a.m_live_time ≥ params.aircraft.LIVE_TIME then
    calculate_landing_destination env a
  else
    calculate_target_destination env a

/-- `Aircraft::correct_closing_to_target`: overshoot guard, negating the
destination when close and closing too fast. -/
def correct_closing_to_target (a : Aircraft) (destination : Vec2) : Vec2 :=
  if destination.get_length ≤ LANDING_RADIUS then
    let projection :=
      ((Vec2.dot a.m_linear_velocity destination) • a.m_linear_velocity).get_length
    if projection > params.aircraft.LANDING_SPEED then -destination
    else destination
  else destination

/-- `Aircraft::calculate_corrected_destination`: steering law output. -/
def calculate_corrected_destination (env : Env) (a : Aircraft) : Vec2 :=
  let destination := calculate_destination env a
  let destination := a.correct_closing_to_target destination
  params.aircraft.LINEAR_SPEED • destination.get_normalized - a.m_linear_velocity

/-- `Aircraft::calculate_rotation`: signed angle to the destination, clamped to
the angular speed times `dt`. -/
def calculate_rotation (a : Aircraft) (destination : Vec2) (dt : ℝ) : ℝ :=
  let normalized_velocity := Vec2.mk (Real.cos a.m_angle) (Real.sin a.m_angle)
  let target_angle := Vec2.angle_rad destination normalized_velocity
  if target_angle > 0 then
    min (params.aircraft.ANGULAR_SPEED * dt) target_angle
  else
    max (-(params.aircraft.ANGULAR_SPEED * dt)) target_angle

/-- `Aircraft::update_linear_velocity`: accelerate along the heading, clamping
the magnitude to `LINEAR_SPEED`. -/
def update_linear_velocity (a : Aircraft) (dt : ℝ) : Aircraft :=
  let normalized_velocity := Vec2.mk (Real.cos a.m_angle) (Real.sin a.m_angle)
  let v := a.m_linear_velocity +
    (params.aircraft.LINEAR_ACCELERATION * dt) • normalized_velocity
  if v.get_length > params.aircraft.LINEAR_SPEED then
    { a with m_linear_velocity := params.aircraft.LINEAR_SPEED • v.get_normalized }
  else
    { a with m_linear_velocity := v }

/-- `Aircraft::update`: one tick.  Returns the removal flag (the C++ `bool`,
`false` = remove), the post-call member state, and the mesh placements made. -/
def update (env : Env) (dt ship_delta_rotation : ℝ) (ship_delta_velocity : Vec2)
    (a : Aircraft) : Bool × Aircraft × List (ℝ × ℝ × ℝ) :=
  if a.m_live_time ≥ params.aircraft.LIVE_TIME ∧
      (env.ship_position - a.m_position).get_length ≤ params.ship.SIZE then
    (false, a, [])
  else
    let a1 :=
      if a.m_live_time < params.aircraft.TAKEOFF_TIME then
        { a with
            m_linear_velocity := a.m_linear_velocity + ship_delta_velocity,
            m_angle := env.ship_angle,
            m_position :=
              ((a.m_position - env.ship_position).get_rotated ship_delta_rotation) +
                env.ship_position }
      else
        let destination := calculate_corrected_destination env a
        let delta_rotation := a.calculate_rotation destination dt
        { a with m_angle := a.m_angle + delta_rotation }
    let a2 := a1.update_linear_velocity dt
    let a3 := { a2 with m_position := a2.m_position + dt • a2.m_linear_velocity }
    let a4 := { a3 with m_live_time := a3.m_live_time + dt }
    (true, a4, [(a3.m_position.x, a3.m_position.y, a3.m_angle)])

end Aircraft

/-- The four directional keys read by `Ship::update`. -/
inductive Key where
  | forward : Key
  | backward : Key
  | left : Key
  | right : Key
deriving DecidableEq

/-- Whole-game state: the `Ship` members plus the process-wide goal point
`game::s_goal_position`. -/
structure GameState where
  position : Vec2
  angle : ℝ
  input : Key → Bool
  m_aircrafts : List Aircraft
  m_aircraft_refill_timers : List ℝ
  m_live_time : ℝ
  s_goal_position : Vec2

/-- State right after `Ship::init` (and `game::s_goal_position`'s default). -/
def initState : GameState :=
  { position := ⟨0, 0⟩
    angle := 0
    input := fun _ => false
    m_aircrafts := []
    m_aircraft_refill_timers := []
    m_live_time := 0
    s_goal_position := ⟨0, 0⟩ }

namespace Ship

/-- Linear speed chosen from the key state in `Ship::update`. -/
def linearSpeedOf (s : GameState) : ℝ :=
  if s.input Key.forward then params.ship.LINEAR_SPEED
  else if s.input Key.backward then -params.ship.LINEAR_SPEED
  else 0

/-- Angular speed chosen from the key state (turning only while moving). -/
def angularSpeedOf (s : GameState) : ℝ :=
  if s.input Key.left ∧ linearSpeedOf s ≠ 0 then params.ship.ANGULAR_SPEED
  else if s.input Key.right ∧ linearSpeedOf s ≠ 0 then -params.ship.ANGULAR_SPEED
  else 0

/-- This tick's `ship_rotation` delta. -/
def rotationOf (dt : ℝ) (s : GameState) : ℝ := angularSpeedOf s * dt

/-- Ship angle after this tick's integration. -/
def newAngle (dt : ℝ) (s : GameState) : ℝ := s.angle + rotationOf dt s

/-- This tick's `ship_velocity` delta (a displacement: already times `dt`). -/
def shipVelocity (dt : ℝ) (s : GameState) : Vec2 :=
  (linearSpeedOf s * dt) •
    Vec2.mk (Real.cos (newAngle dt s)) (Real.sin (newAngle dt s))

/-- Ship position after this tick's integration. -/
def newPosition (dt : ℝ) (s : GameState) : Vec2 := s.position + shipVelocity dt s

/-- Ship/goal context the aircraft see during this tick (the ship has already
moved when the aircraft loop runs). -/
def envAfterMove (dt : ℝ) (s : GameState) : Env :=
  ⟨newPosition dt s, newAngle dt s, s.s_goal_position⟩

end Ship

/-- The aircraft loop of `Ship::update`: update each aircraft in order, keep
the survivors, and count the erased ones. -/
def processAircrafts (env : Env) (dt dr : ℝ) (dv : Vec2) :
    List Aircraft → List Aircraft × Nat
  | [] => ([], 0)
  | a :: rest =>
    let r := Aircraft.update env dt dr dv a
    let p := processAircrafts env dt dr dv rest
    if r.1 then (r.2.1 :: p.1, p.2) else (p.1, p.2 + 1)

namespace Ship

/-- `Ship::update`: integrate the ship's own motion, expire refill timers, run
every aircraft (erased ones each push a refill timer stamped with the pre-tick
`m_live_time`), then advance the lifetime clock. -/
def update (dt : ℝ) (s : GameState) : GameState :=
  let processed :=
    processAircrafts (envAfterMove dt s) dt (rotationOf dt s) (shipVelocity dt s)
      s.m_aircrafts
  { s with
      angle := newAngle dt s
      position := newPosition dt s
      m_aircrafts := processed.1
      m_aircraft_refill_timers :=
        (s.m_aircraft_refill_timers.filter
            (fun t => !decide (s.m_live_time ≥ t + params.ship.REFILL_TIME))) ++
          List.replicate processed.2 s.m_live_time
      m_live_time := s.m_live_time + dt }

/-- `Ship::keyPressed`. -/
def keyPressed (k : Key) (s : GameState) : GameState :=
  { s with input := fun k2 => if k2 = k then true else s.input k2 }

/-- `Ship::keyReleased`. -/
def keyReleased (k : Key) (s : GameState) : GameState :=
  { s with input := fun k2 => if k2 = k then false else s.input k2 }

/-- `Ship::mouseClicked`: left click places the goal, right click spawns an
aircraft at the ship's pose if capacity allows. -/
def mouseClicked (worldPosition : Vec2) (isLeftButton : Bool) (s : GameState) :
    GameState :=
  if isLeftButton then { s with s_goal_position := worldPosition }
  else if s.m_aircrafts.length + s.m_aircraft_refill_timers.length < 5 then
    { s with
        m_aircrafts := s.m_aircrafts ++
          [{ m_position := s.position
             m_angle := s.angle
             m_linear_velocity := ⟨0, 0⟩
             m_live_time := 0 }] }
  else s

end Ship

/-- Player-visible events driving the simulation. -/
inductive Event where
  | update (dt : ℝ) : Event
  | keyPressed (k : Key) : Event
  | keyReleased (k : Key) : Event
  | mouseClicked (pos : Vec2) (isLeftButton : Bool) : Event

/-- One event applied to the game state. -/
def step (s : GameState) : Event → GameState
  | Event.update dt => Ship.update dt s
  | Event.keyPressed k => Ship.keyPressed k s
  | Event.keyReleased k => Ship.keyReleased k s
  | Event.mouseClicked pos b => Ship.mouseClicked pos b s

/-- Run a whole event sequence from the initial state. -/
def run (events : List Event) : GameState := events.foldl step initState

/-- Number of active aircraft plus pending refill timers. -/
def capacityCount (s : GameState) : Nat :=
  s.m_aircrafts.length + s.m_aircraft_refill_timers.length

/-- Follows the spec's words for claim C8 only, for comparison with the source:
the intersection solve "special-cased (e.g. falls back to a vertical-line
formula)" when the first direction has zero x-component; elsewhere it is the
source's direct solve. -/
def spec_get_intersection_special_cased
    (position_1 vector_1 position_2 vector_2 : Vec2) : Vec2 :=
  if vector_1.x = 0 then
    let k := (position_1.x - position_2.x) / vector_2.x
    ⟨position_2.x + vector_2.x * k, position_2.y + vector_2.y * k⟩
  else
    Aircraft.get_intersection position_1 vector_1 position_2 vector_2

/-- Claim C1's property at one input: the steering output is `V_MAX` times the
normalized (overshoot-corrected) destination minus the current velocity, and
adding the velocity back gives a vector of magnitude exactly `V_MAX`. -/
def steeringPost (env : Env) (a : Aircraft) : Prop :=
  Aircraft.calculate_corrected_destination env a =
      params.aircraft.LINEAR_SPEED •
        (a.correct_closing_to_target
          (Aircraft.calculate_destination env a)).get_normalized -
        a.m_linear_velocity ∧
  (Aircraft.calculate_corrected_destination env a +
      a.m_linear_velocity).get_length = params.aircraft.LINEAR_SPEED

/-- Claim C3's property at one input: the point the landing law uses lies on
the line through the ship along its forward vector and on the line through the
agent along the forward-normal, and the destination follows the three-phase
formulas driven by the distance to that point. -/
def landingPhasePost (env : Env) (a : Aircraft) : Prop :=
  let fwd := (Vec2.mk 1 0).get_rotated env.ship_angle
  let nrm := fwd.get_rotated (Real.pi / 2)
  let intersection :=
    Aircraft.get_intersection env.ship_position fwd a.m_position nrm
  let d := (intersection - a.m_position).get_length
  (∃ n k : ℝ,
      intersection = env.ship_position + n • fwd ∧
      intersection = a.m_position + k • nrm) ∧
  Aircraft.calculate_destination env a =
    (if d > 0.01 then
      if d > Aircraft.LANDING_RADIUS then
        intersection +
          Aircraft.LANDING_RADIUS • (a.m_position - intersection).get_normalized -
          a.m_position
      else
        intersection +
          Aircraft.LANDING_RADIUS •
            (env.ship_position - intersection).get_normalized -
          a.m_position
    else env.ship_position - a.m_position)

/-- Velocity an aircraft in takeoff carries after one tick: the ship's delta
velocity is accumulated, then acceleration along the (ship-slaved) heading is
added and the magnitude is clamped. -/
def takeoffVelocity (env : Env) (dt : ℝ) (dv : Vec2) (a : Aircraft) : Vec2 :=
  let v2 := a.m_linear_velocity + dv +
    (params.aircraft.LINEAR_ACCELERATION * dt) •
      Vec2.mk (Real.cos env.ship_angle) (Real.sin env.ship_angle)
  if v2.get_length > params.aircraft.LINEAR_SPEED then
    params.aircraft.LINEAR_SPEED • v2.get_normalized
  else v2

/-- Position an aircraft in takeoff reaches after one tick: rigid rotation
about the ship, then integration of the tick's own velocity (not an offset by
the ship's delta position). -/
def takeoffPosition (env : Env) (dt dr : ℝ) (dv : Vec2) (a : Aircraft) : Vec2 :=
  ((a.m_position - env.ship_position).get_rotated dr) + env.ship_position +
    dt • takeoffVelocity env dt dv a

/-- Claim C7's (amended) property at one input: full description of a takeoff
tick. -/
def takeoffPost (env : Env) (dt dr : ℝ) (dv : Vec2) (a : Aircraft) : Prop :=
  Aircraft.update env dt dr dv a =
    (true,
      { m_position := takeoffPosition env dt dr dv a
        m_angle := env.ship_angle
        m_linear_velocity := takeoffVelocity env dt dv a
        m_live_time := a.m_live_time + dt },
      [((takeoffPosition env dt dr dv a).x, (takeoffPosition env dt dr dv a).y,
        env.ship_angle)])

/-- Concrete inputs used to instantiate claim C1. -/
def envC1 : Env := ⟨⟨0, 0⟩, 0, ⟨0, 0⟩⟩

def acC1 : Aircraft := ⟨⟨1.5, 0⟩, 0, ⟨0, 0⟩, 0⟩

/-- Concrete inputs used to instantiate claim C3. -/
def envC3 : Env := ⟨⟨0, 0⟩, 0, ⟨0, 0⟩⟩

def acC3 : Aircraft := ⟨⟨0, 10⟩, 0, ⟨0, 0⟩, 50⟩

/-- Concrete inputs used to instantiate claim C4. -/
def envC4 : Env := ⟨⟨0, 0⟩, 0, ⟨0, 0⟩⟩

def acC4 : Aircraft := ⟨⟨1.5, 0⟩, 0, ⟨0, 0⟩, 0⟩

def acC4w : Aircraft := ⟨⟨0, 1.5⟩, 0, ⟨0, 0⟩, 0⟩

/-- Concrete inputs used to instantiate claim C7 (stationary ship at the
origin, aircraft one unit ahead, one tick of `dt = 1`). -/
def envC7 : Env := ⟨⟨0, 0⟩, 0, ⟨0, 0⟩⟩

def acC7 : Aircraft := ⟨⟨1, 0⟩, 0, ⟨0, 0⟩, 0⟩

/-- Concrete inputs used to instantiate claim C8 (ship facing exactly
vertical). -/
def envC8 : Env := ⟨⟨0, 0⟩, Real.pi / 2, ⟨3, 5⟩⟩

def acC8 : Aircraft := ⟨⟨3, 5⟩, 0, ⟨0, 0⟩, 50⟩

/-- Concrete inputs used to instantiate claim C9. -/
def envC9 : Env := ⟨⟨0, 0⟩, 0, ⟨0, 0⟩⟩

def acC9 : Aircraft := ⟨⟨1, 0⟩, 0, ⟨0, 0⟩, 0⟩

/-- Concrete inputs used to instantiate claim C10 (expired aircraft sitting on
the ship). -/
def envC10 : Env := ⟨⟨0, 0⟩, 0, ⟨0, 0⟩⟩

def acC10 : Aircraft := ⟨⟨0, 0⟩, 0, ⟨0, 0⟩, 50⟩

theorem Vec2.get_length_nonneg (v : Vec2) : 0 ≤ v.get_length :=
  Real.sqrt_nonneg _

theorem Vec2.mul_self_get_length (v : Vec2) :
    v.get_length * v.get_length = v.x * v.x + v.y * v.y :=
  Real.mul_self_sqrt (add_nonneg (mul_self_nonneg _) (mul_self_nonneg _))

theorem Vec2.get_length_eq_zero_iff (v : Vec2) :
    v.get_length = 0 ↔ v = ⟨0, 0⟩ := by
  constructor
  · intro h
    unfold Vec2.get_length at h
    have h2 : v.x * v.x + v.y * v.y ≤ 0 := Real.sqrt_eq_zero'.mp h
    have hx : v.x = 0 := by nlinarith [mul_self_nonneg v.x, mul_self_nonneg v.y]
    have hy : v.y = 0 := by nlinarith [mul_self_nonneg v.x, mul_self_nonneg v.y]
    ext
    · exact hx
    · exact hy
  · intro h
    subst h
    simp [Vec2.get_length]

theorem Vec2.get_length_neg (v : Vec2) : (-v).get_length = v.get_length := by
  unfold Vec2.get_length
  simp only [Vec2.neg_x, Vec2.neg_y]
  ring_nf

theorem Vec2.get_length_smul (c : ℝ) (v : Vec2) :
    (c • v).get_length = |c| * v.get_length := by
  unfold Vec2.get_length
  simp only [Vec2.smul_x, Vec2.smul_y]
  rw [show c * v.x * (c * v.x) + c * v.y * (c * v.y)
        = c ^ 2 * (v.x * v.x + v.y * v.y) by ring]
  rw [Real.sqrt_mul (by positivity), Real.sqrt_sq_eq_abs]

theorem Vec2.get_normalized_length (v : Vec2) (h : v.get_length ≠ 0) :
    v.get_normalized.get_length = 1 := by
  have hpos : 0 < v.get_length := lt_of_le_of_ne v.get_length_nonneg (Ne.symm h)
  have hrepr : v.get_normalized = (1 / v.get_length) • v := by
    unfold Vec2.get_normalized
    ext
    · simp only [Vec2.smul_x]
      ring
    · simp only [Vec2.smul_y]
      ring
  rw [hrepr, Vec2.get_length_smul, abs_of_pos (by positivity), one_div_mul_cancel h]

/-- C2: the overshoot guard negates the destination if and only if the
destination's length is at most `LANDING_RADIUS` and the closing-speed
projection `length(dot_normalized(velocity, destination) * velocity)` exceeds
`LANDING_SPEED`; otherwise the destination is returned unchanged. -/
theorem overshoot_guard_iff (a : Aircraft) (d : Vec2) :
    a.correct_closing_to_target d =
      if d.get_length ≤ Aircraft.LANDING_RADIUS ∧
          ((Vec2.dot a.m_linear_velocity d) • a.m_linear_velocity).get_length >
            params.aircraft.LANDING_SPEED then
        -d
      else d := by
  unfold Aircraft.correct_closing_to_target
  dsimp only
  split_ifs with h1 h2 h3 <;> first | rfl | tauto

/-- C10: when `Aircraft::update` reports removal, it returns before any state
mutation: position, angle, velocity and age are unchanged and no mesh
placement is performed. -/
theorem removal_leaves_state_unchanged (env : Env) (dt dr : ℝ) (dv : Vec2)
    (a : Aircraft) (h1 : a.m_live_time ≥ params.aircraft.LIVE_TIME)
    (h2 : (env.ship_position - a.m_position).get_length ≤ params.ship.SIZE) :
    Aircraft.update env dt dr dv a = (false, a, []) := by
  unfold Aircraft.update
  rw [if_pos ⟨h1, h2⟩]

/-- Witness for C10: an expired aircraft sitting exactly on the ship is removed
with its state untouched. -/
theorem removal_leaves_state_unchanged_witness :
    acC10.m_live_time ≥ params.aircraft.LIVE_TIME ∧
      (envC10.ship_position - acC10.m_position).get_length ≤ params.ship.SIZE ∧
      Aircraft.update envC10 1 0 (Vec2.mk 0 0) acC10 = (false, acC10, []) := by
  have h1 : acC10.m_live_time ≥ params.aircraft.LIVE_TIME := by
    norm_num [acC10, params.aircraft.LIVE_TIME]
  have h2 : (envC10.ship_position - acC10.m_position).get_length ≤
      params.ship.SIZE := by
    have hz : envC10.ship_position - acC10.m_position = (⟨0, 0⟩ : Vec2) := by
      ext <;> simp [envC10, acC10]
    rw [hz]
    rw [show ((⟨0, 0⟩ : Vec2)).get_length = 0 from
      (Vec2.get_length_eq_zero_iff _).mpr rfl]
    norm_num [params.ship.SIZE]
  exact ⟨h1, h2, removal_leaves_state_unchanged _ _ _ _ _ h1 h2⟩

theorem update_linear_velocity_get_length_le (a : Aircraft) (dt : ℝ) :
    ((a.update_linear_velocity dt).m_linear_velocity).get_length ≤
      params.aircraft.LINEAR_SPEED := by
  unfold Aircraft.update_linear_velocity
  dsimp only
  set v := a.m_linear_velocity +
    (params.aircraft.LINEAR_ACCELERATION * dt) •
      Vec2.mk (Real.cos a.m_angle) (Real.sin a.m_angle) with hv
  split_ifs with h
  · show (params.aircraft.LINEAR_SPEED • v.get_normalized).get_length ≤ _
    have hvpos : 0 < v.get_length := by
      have : (0:ℝ) < params.aircraft.LINEAR_SPEED := by
        norm_num [params.aircraft.LINEAR_SPEED]
      linarith
    rw [Vec2.get_length_smul, Vec2.get_normalized_length _ (ne_of_gt hvpos),
      mul_one, abs_of_pos (by norm_num [params.aircraft.LINEAR_SPEED])]
  · exact le_of_not_lt h

/-- C9: after every `Aircraft::update` call that keeps the aircraft, the
magnitude of its linear velocity is at most `LINEAR_SPEED`, in every state
including takeoff, because the acceleration-and-clamp step runs on every
surviving tick. -/
theorem velocity_magnitude_clamped (env : Env) (dt dr : ℝ) (dv : Vec2)
    (a : Aircraft) (h : (Aircraft.update env dt dr dv a).1 = true) :
    ((Aircraft.update env dt dr dv a).2.1.m_linear_velocity).get_length ≤
      params.aircraft.LINEAR_SPEED := by
  unfold Aircraft.update at h ⊢
  by_cases hrem : (a.m_live_time ≥ params.aircraft.LIVE_TIME ∧
      (env.ship_position - a.m_position).get_length ≤ params.ship.SIZE)
  · rw [if_pos hrem] at h
    simp at h
  · rw [if_neg hrem]
    exact update_linear_velocity_get_length_le _ dt

/-- Witness for C9: a freshly spawned aircraft survives its first tick and ends
it within the speed limit. -/
theorem velocity_magnitude_clamped_witness :
    (Aircraft.update envC9 1 0 (Vec2.mk 0 0) acC9).1 = true ∧
      ((Aircraft.update envC9 1 0 (Vec2.mk 0 0) acC9).2.1.m_linear_velocity).get_length ≤
        params.aircraft.LINEAR_SPEED := by
  have hnc : ¬(acC9.m_live_time ≥ params.aircraft.LIVE_TIME ∧
      (envC9.ship_position - acC9.m_position).get_length ≤ params.ship.SIZE) := by
    intro hcon
    have h50 := hcon.1
    norm_num [acC9, params.aircraft.LIVE_TIME] at h50
  have h : (Aircraft.update envC9 1 0 (Vec2.mk 0 0) acC9).1 = true := by
    unfold Aircraft.update
    rw [if_neg hnc]
  exact ⟨h, velocity_magnitude_clamped _ _ _ _ _ h⟩

theorem correct_closing_get_length (a : Aircraft) (d : Vec2) :
    (a.correct_closing_to_target d).get_length = d.get_length := by
  unfold Aircraft.correct_closing_to_target
  dsimp only
  split_ifs <;> simp [Vec2.get_length_neg]

/-- C1: for a non-zero destination, the steering law's output is exactly
`V_MAX * normalize(destination') - velocity` where `destination'` is the
(possibly overshoot-corrected) destination, so the output plus the current
velocity has magnitude exactly `V_MAX = LINEAR_SPEED`. -/
theorem steering_law_formula (env : Env) (a : Aircraft)
    (hd : Aircraft.calculate_destination env a ≠ Vec2.mk 0 0) :
    steeringPost env a := by
  constructor
  · rfl
  · set d := Aircraft.calculate_destination env a with hd0
    have hne : d.get_length ≠ 0 := fun h0 => hd ((Vec2.get_length_eq_zero_iff d).mp h0)
    have hcne : (a.correct_closing_to_target d).get_length ≠ 0 := by
      rw [correct_closing_get_length]
      exact hne
    have hcancel : Aircraft.calculate_corrected_destination env a +
        a.m_linear_velocity =
        params.aircraft.LINEAR_SPEED •
          (a.correct_closing_to_target d).get_normalized := by
      show params.aircraft.LINEAR_SPEED •
          (a.correct_closing_to_target d).get_normalized - a.m_linear_velocity +
          a.m_linear_velocity = _
      ext
      · simp
      · simp
    rw [hcancel, Vec2.get_length_smul, Vec2.get_normalized_length _ hcne, mul_one,
      abs_of_pos (by norm_num [params.aircraft.LINEAR_SPEED])]

/-- Witness for C1 at a concrete aircraft orbiting the goal. -/
theorem steering_law_formula_witness :
    Aircraft.calculate_destination envC1 acC1 ≠ Vec2.mk 0 0 ∧
      steeringPost envC1 acC1 := by
  have hdest : Aircraft.calculate_destination envC1 acC1 =
      Vec2.mk (-1.5) (-1.5) := by
    unfold Aircraft.calculate_destination
    rw [if_neg (by norm_num [acC1, params.aircraft.LIVE_TIME])]
    unfold Aircraft.calculate_target_destination
    dsimp only
    have hrot : (envC1.s_goal_position - acC1.m_position).get_rotated
        (Real.pi / 2) = Vec2.mk 0 (-1.5) := by
      ext <;>
        simp [envC1, acC1, Vec2.get_rotated, Real.cos_pi_div_two,
          Real.sin_pi_div_two]
    rw [hrot]
    have hnorm : (Vec2.mk 0 (-1.5)).get_normalized = Vec2.mk 0 (-1) := by
      have hL : (Vec2.mk 0 (-1.5)).get_length = 1.5 := by
        unfold Vec2.get_length
        rw [show ((0:ℝ) * 0 + (-1.5) * (-1.5)) = 1.5 ^ 2 by norm_num,
          Real.sqrt_sq (by norm_num : (0:ℝ) ≤ 1.5)]
      unfold Vec2.get_normalized
      rw [hL]
      ext <;> norm_num
    rw [hnorm]
    ext <;> simp [envC1, acC1, params.aircraft.TARGET_RADIUS]
  have hd : Aircraft.calculate_destination envC1 acC1 ≠ Vec2.mk 0 0 := by
    rw [hdest]
    intro hcon
    rw [Vec2.mk.injEq] at hcon
    norm_num at hcon
  exact ⟨hd, steering_law_formula _ _ hd⟩

theorem vec2_inner_add_left (u v w : Vec2) :
    Vec2.inner (u + v) w = Vec2.inner u w + Vec2.inner v w := by
  unfold Vec2.inner
  simp only [Vec2.add_x, Vec2.add_y]
  ring

theorem inner_smul_normalized_rot90 (T : Vec2) (c : ℝ) :
    Vec2.inner (c • (T.get_rotated (Real.pi / 2)).get_normalized) T = 0 := by
  have hrot : T.get_rotated (Real.pi / 2) = ⟨-T.y, T.x⟩ := by
    ext <;> simp [Vec2.get_rotated, Real.cos_pi_div_two, Real.sin_pi_div_two]
  rw [hrot]
  unfold Vec2.inner Vec2.get_normalized
  dsimp only [Vec2.smul_x, Vec2.smul_y]
  ring

/-- Counterexample to C4: at a concrete agent position on the orbit circle the
destination is not perpendicular to the vector to the goal (their raw dot
product is nonzero). -/
theorem orbit_tangential_counterexample :
    (envC4.s_goal_position - acC4.m_position).get_length =
        params.aircraft.TARGET_RADIUS ∧
      acC4.m_position ≠ envC4.s_goal_position ∧
      Vec2.inner (Aircraft.calculate_target_destination envC4 acC4)
        (envC4.s_goal_position - acC4.m_position) ≠ 0 := by
  have hT : envC4.s_goal_position - acC4.m_position = Vec2.mk (-1.5) 0 := by
    ext <;> simp [envC4, acC4]
  have hlen : (Vec2.mk (-1.5 : ℝ) 0).get_length = 1.5 := by
    unfold Vec2.get_length
    rw [show ((-1.5 : ℝ) * (-1.5) + 0 * 0) = 1.5 ^ 2 by norm_num,
      Real.sqrt_sq (by norm_num : (0:ℝ) ≤ 1.5)]
  have hdest : Aircraft.calculate_target_destination envC4 acC4 =
      Vec2.mk (-1.5) (-1.5) := by
    unfold Aircraft.calculate_target_destination
    dsimp only
    have hrot : (envC4.s_goal_position - acC4.m_position).get_rotated
        (Real.pi / 2) = Vec2.mk 0 (-1.5) := by
      ext <;>
        simp [envC4, acC4, Vec2.get_rotated, Real.cos_pi_div_two,
          Real.sin_pi_div_two]
    rw [hrot]
    have hnorm : (Vec2.mk (0:ℝ) (-1.5)).get_normalized = Vec2.mk 0 (-1) := by
      have hL : (Vec2.mk (0:ℝ) (-1.5)).get_length = 1.5 := by
        unfold Vec2.get_length
        rw [show ((0:ℝ) * 0 + (-1.5) * (-1.5)) = 1.5 ^ 2 by norm_num,
          Real.sqrt_sq (by norm_num : (0:ℝ) ≤ 1.5)]
      unfold Vec2.get_normalized
      rw [hL]
      ext <;> norm_num
    rw [hnorm]
    ext <;> simp [envC4, acC4, params.aircraft.TARGET_RADIUS]
  refine ⟨by rw [hT, hlen]; norm_num [params.aircraft.TARGET_RADIUS], ?_, ?_⟩
  · intro hcon
    have hx := congrArg Vec2.x hcon
    norm_num [acC4, envC4] at hx
  · rw [hdest, hT]
    unfold Vec2.inner
    norm_num

/-- C4 (amended): the orbit destination decomposes as the vector to the goal
plus a `TARGET_RADIUS`-long offset perpendicular to that vector; for an agent
on the orbit circle the destination itself is NOT perpendicular to the vector
to the goal: their raw dot product equals `TARGET_RADIUS` squared. -/
theorem orbit_offset_perpendicular (env : Env) (a : Aircraft)
    (h : (env.s_goal_position - a.m_position).get_length =
      params.aircraft.TARGET_RADIUS) :
    Aircraft.calculate_target_destination env a =
        (env.s_goal_position - a.m_position) +
          params.aircraft.TARGET_RADIUS •
            ((env.s_goal_position - a.m_position).get_rotated
              (Real.pi / 2)).get_normalized ∧
      Vec2.inner (Aircraft.calculate_target_destination env a -
          (env.s_goal_position - a.m_position))
        (env.s_goal_position - a.m_position) = 0 ∧
      Vec2.inner (Aircraft.calculate_target_destination env a)
        (env.s_goal_position - a.m_position) =
        params.aircraft.TARGET_RADIUS * params.aircraft.TARGET_RADIUS := by
  have hdecomp : Aircraft.calculate_target_destination env a =
      (env.s_goal_position - a.m_position) +
        params.aircraft.TARGET_RADIUS •
          ((env.s_goal_position - a.m_position).get_rotated
            (Real.pi / 2)).get_normalized := by
    unfold Aircraft.calculate_target_destination
    dsimp only
    ext
    · simp
      ring
    · simp
      ring
  refine ⟨hdecomp, ?_, ?_⟩
  · have hsub : Aircraft.calculate_target_destination env a -
        (env.s_goal_position - a.m_position) =
        params.aircraft.TARGET_RADIUS •
          ((env.s_goal_position - a.m_position).get_rotated
            (Real.pi / 2)).get_normalized := by
      rw [hdecomp]
      ext
      · simp
      · simp
    rw [hsub]
    exact inner_smul_normalized_rot90 _ _
  · rw [hdecomp, vec2_inner_add_left, inner_smul_normalized_rot90, add_zero]
    unfold Vec2.inner
    rw [← Vec2.mul_self_get_length, h]

/-- Witness for C4's amended claim at a concrete on-circle agent. -/
theorem orbit_offset_perpendicular_witness :
    (envC4.s_goal_position - acC4w.m_position).get_length =
        params.aircraft.TARGET_RADIUS ∧
      (Aircraft.calculate_target_destination envC4 acC4w =
          (envC4.s_goal_position - acC4w.m_position) +
            params.aircraft.TARGET_RADIUS •
              ((envC4.s_goal_position - acC4w.m_position).get_rotated
                (Real.pi / 2)).get_normalized ∧
        Vec2.inner (Aircraft.calculate_target_destination envC4 acC4w -
            (envC4.s_goal_position - acC4w.m_position))
          (envC4.s_goal_position - acC4w.m_position) = 0 ∧
        Vec2.inner (Aircraft.calculate_target_destination envC4 acC4w)
          (envC4.s_goal_position - acC4w.m_position) =
          params.aircraft.TARGET_RADIUS * params.aircraft.TARGET_RADIUS) := by
  have hT : envC4.s_goal_position - acC4w.m_position = Vec2.mk 0 (-1.5) := by
    ext <;> simp [envC4, acC4w]
  have h : (envC4.s_goal_position - acC4w.m_position).get_length =
      params.aircraft.TARGET_RADIUS := by
    rw [hT]
    unfold Vec2.get_length
    rw [show ((0:ℝ) * 0 + (-1.5) * (-1.5)) = 1.5 ^ 2 by norm_num,
      Real.sqrt_sq (by norm_num : (0:ℝ) ≤ 1.5)]
    norm_num [params.aircraft.TARGET_RADIUS]
  exact ⟨h, orbit_offset_perpendicular envC4 acC4w h⟩

theorem aircraft_update_takeoff (env : Env) (dt dr : ℝ) (dv : Vec2)
    (a : Aircraft) (hl : a.m_live_time < params.aircraft.TAKEOFF_TIME) :
    takeoffPost env dt dr dv a := by
  have hnrem : ¬(a.m_live_time ≥ params.aircraft.LIVE_TIME ∧
      (env.ship_position - a.m_position).get_length ≤ params.ship.SIZE) := by
    intro hcon
    have h1 := hcon.1
    have h2 : params.aircraft.TAKEOFF_TIME ≤ params.aircraft.LIVE_TIME := by
      norm_num [params.aircraft.TAKEOFF_TIME, params.aircraft.LIVE_TIME]
    linarith
  unfold takeoffPost Aircraft.update
  rw [if_neg hnrem, if_pos hl]
  unfold Aircraft.update_linear_velocity takeoffPosition takeoffVelocity
  dsimp only
  split_ifs with hc <;> rfl

/-- Counterexample to C7: a takeoff tick with a stationary ship (delta-rotation
`0`, delta-position `(0,0)`); the post-update position is `(1.3, 0)`, not the
rigidly-rotated-then-offset position `(1, 0)` the claim asserts, because the
tick also integrates the aircraft's own (freshly accelerated) velocity. -/
theorem takeoff_offset_counterexample :
    acC7.m_live_time < params.aircraft.TAKEOFF_TIME ∧
      (Aircraft.update envC7 1 0 (Vec2.mk 0 0) acC7).2.1.m_position =
        Vec2.mk 1.3 0 ∧
      ((acC7.m_position - envC7.ship_position).get_rotated 0) +
          envC7.ship_position + Vec2.mk 0 0 = Vec2.mk 1 0 ∧
      Vec2.mk (1.3 : ℝ) 0 ≠ Vec2.mk 1 0 := by
  have hl : acC7.m_live_time < params.aircraft.TAKEOFF_TIME := by
    norm_num [acC7, params.aircraft.TAKEOFF_TIME]
  have hpost := aircraft_update_takeoff envC7 1 0 (Vec2.mk 0 0) acC7 hl
  unfold takeoffPost at hpost
  have hvel : takeoffVelocity envC7 1 (Vec2.mk 0 0) acC7 = Vec2.mk 0.3 0 := by
    unfold takeoffVelocity
    dsimp only
    have hv2 : acC7.m_linear_velocity + Vec2.mk 0 0 +
        (params.aircraft.LINEAR_ACCELERATION * 1) •
          Vec2.mk (Real.cos envC7.ship_angle) (Real.sin envC7.ship_angle) =
        Vec2.mk 0.3 0 := by
      ext <;>
        simp [acC7, envC7, params.aircraft.LINEAR_ACCELERATION, Real.cos_zero,
          Real.sin_zero]
    rw [hv2]
    have hL : (Vec2.mk (0.3:ℝ) 0).get_length = 0.3 := by
      unfold Vec2.get_length
      rw [show ((0.3:ℝ) * 0.3 + 0 * 0) = 0.3 ^ 2 by norm_num,
        Real.sqrt_sq (by norm_num : (0:ℝ) ≤ 0.3)]
    rw [if_neg (by rw [hL]; norm_num [params.aircraft.LINEAR_SPEED])]
  refine ⟨hl, ?_, ?_, ?_⟩
  · rw [hpost]
    show takeoffPosition envC7 1 0 (Vec2.mk 0 0) acC7 = Vec2.mk 1.3 0
    unfold takeoffPosition
    rw [hvel]
    ext
    · simp [acC7, envC7, Vec2.get_rotated, Real.cos_zero, Real.sin_zero]
      norm_num
    · simp [acC7, envC7, Vec2.get_rotated, Real.cos_zero, Real.sin_zero]
  · ext <;> simp [acC7, envC7, Vec2.get_rotated, Real.cos_zero, Real.sin_zero]
  · intro hcon
    rw [Vec2.mk.injEq] at hcon
    norm_num at hcon

/-- C7 (amended): on a takeoff tick the aircraft's angle is slaved exactly to
the ship's angle; its velocity accumulates the ship's delta-velocity and this
tick's acceleration along the ship-slaved heading, clamped to `LINEAR_SPEED`;
its position is rotated rigidly about the ship's position by the ship's
delta-rotation and then advanced by `dt` times the updated velocity (not
offset by the ship's delta-position). -/
theorem takeoff_slaved_update (env : Env) (dt dr : ℝ) (dv : Vec2) (a : Aircraft)
    (hl : a.m_live_time < params.aircraft.TAKEOFF_TIME) :
    takeoffPost env dt dr dv a :=
  aircraft_update_takeoff env dt dr dv a hl

/-- Witness for C7's amended claim at the concrete takeoff tick. -/
theorem takeoff_slaved_update_witness :
    acC7.m_live_time < params.aircraft.TAKEOFF_TIME ∧
      takeoffPost envC7 1 0 (Vec2.mk 0 0) acC7 := by
  have hl : acC7.m_live_time < params.aircraft.TAKEOFF_TIME := by
    norm_num [acC7, params.aircraft.TAKEOFF_TIME]
  exact ⟨hl, takeoff_slaved_update envC7 1 0 (Vec2.mk 0 0) acC7 hl⟩

/-- Counterexample to C8: with the ship facing exactly vertical the forward
vector has zero x-component, yet `get_intersection` is still evaluated through
the direct solve (no special case exists in the code): its result differs from
the spec's vertical-line fallback and does not even lie on the vertical line
through the ship (its x-coordinate is `3`, not `0`). -/
theorem intersection_no_special_case_counterexample :
    ((Vec2.mk 1 0).get_rotated (Real.pi / 2)).x = 0 ∧
      Aircraft.get_intersection (Vec2.mk 0 0)
          ((Vec2.mk 1 0).get_rotated (Real.pi / 2)) (Vec2.mk 3 5)
          (((Vec2.mk 1 0).get_rotated (Real.pi / 2)).get_rotated (Real.pi / 2)) ≠
        spec_get_intersection_special_cased (Vec2.mk 0 0)
          ((Vec2.mk 1 0).get_rotated (Real.pi / 2)) (Vec2.mk 3 5)
          (((Vec2.mk 1 0).get_rotated (Real.pi / 2)).get_rotated (Real.pi / 2)) ∧
      (Aircraft.get_intersection (Vec2.mk 0 0)
          ((Vec2.mk 1 0).get_rotated (Real.pi / 2)) (Vec2.mk 3 5)
          (((Vec2.mk 1 0).get_rotated (Real.pi / 2)).get_rotated
            (Real.pi / 2))).x ≠ (Vec2.mk (0:ℝ) 0).x := by
  have hfwd : (Vec2.mk 1 0).get_rotated (Real.pi / 2) = Vec2.mk 0 1 := by
    ext <;>
      simp [Vec2.get_rotated, Real.cos_pi_div_two, Real.sin_pi_div_two]
  have hnrm : ((Vec2.mk 1 0).get_rotated (Real.pi / 2)).get_rotated
      (Real.pi / 2) = Vec2.mk (-1) 0 := by
    rw [hfwd]
    ext <;>
      simp [Vec2.get_rotated, Real.cos_pi_div_two, Real.sin_pi_div_two]
  have hcode : Aircraft.get_intersection (Vec2.mk 0 0)
      ((Vec2.mk 1 0).get_rotated (Real.pi / 2)) (Vec2.mk 3 5)
      (((Vec2.mk 1 0).get_rotated (Real.pi / 2)).get_rotated (Real.pi / 2)) =
      Vec2.mk 3 5 := by
    rw [hnrm, hfwd]
    unfold Aircraft.get_intersection
    dsimp only
    ext <;> norm_num
  have hspec : spec_get_intersection_special_cased (Vec2.mk 0 0)
      ((Vec2.mk 1 0).get_rotated (Real.pi / 2)) (Vec2.mk 3 5)
      (((Vec2.mk 1 0).get_rotated (Real.pi / 2)).get_rotated (Real.pi / 2)) =
      Vec2.mk 0 5 := by
    rw [hnrm, hfwd]
    unfold spec_get_intersection_special_cased
    rw [if_pos (by norm_num)]
    ext <;> norm_num
  refine ⟨by rw [hfwd], ?_, ?_⟩
  · rw [hcode, hspec]
    intro hcon
    rw [Vec2.mk.injEq] at hcon
    norm_num at hcon
  · rw [hcode]
    norm_num

/-- C8 (amended): the code does NOT special-case the degenerate vertical-ship
input.  When the ship's forward vector has zero x-component the direct solve is
still evaluated; in the real-valued model (division by zero yielding zero) the
returned point is just the agent's own position, so the landing law falls
through to Phase 3 and steers straight for the ship. -/
theorem intersection_degenerate_behavior (env : Env) (a : Aircraft)
    (h : Real.cos env.ship_angle = 0) :
    Aircraft.get_intersection env.ship_position
        ((Vec2.mk 1 0).get_rotated env.ship_angle) a.m_position
        (((Vec2.mk 1 0).get_rotated env.ship_angle).get_rotated (Real.pi / 2))
      = a.m_position ∧
    Aircraft.calculate_landing_destination env a =
      env.ship_position - a.m_position := by
  have hfwd : (Vec2.mk 1 0).get_rotated env.ship_angle =
      Vec2.mk 0 (Real.sin env.ship_angle) := by
    ext <;> simp [Vec2.get_rotated, h]
  have hnrm : ((Vec2.mk 1 0).get_rotated env.ship_angle).get_rotated
      (Real.pi / 2) = Vec2.mk (-(Real.sin env.ship_angle)) 0 := by
    rw [hfwd]
    ext <;>
      simp [Vec2.get_rotated, Real.cos_pi_div_two, Real.sin_pi_div_two]
  have hI : Aircraft.get_intersection env.ship_position
      ((Vec2.mk 1 0).get_rotated env.ship_angle) a.m_position
      (((Vec2.mk 1 0).get_rotated env.ship_angle).get_rotated (Real.pi / 2))
      = a.m_position := by
    rw [hnrm, hfwd]
    unfold Aircraft.get_intersection
    dsimp only
    ext <;> simp [div_zero]
  refine ⟨hI, ?_⟩
  unfold Aircraft.calculate_landing_destination
  dsimp only
  rw [hI]
  have h0 : (a.m_position - a.m_position).get_length = 0 := by
    rw [show a.m_position - a.m_position = (⟨0, 0⟩ : Vec2) by ext <;> simp]
    exact (Vec2.get_length_eq_zero_iff _).mpr rfl
  rw [h0, if_neg (by norm_num)]

/-- Witness for C8's amended claim: ship facing straight up. -/
theorem intersection_degenerate_behavior_witness :
    Real.cos envC8.ship_angle = 0 ∧
      (Aircraft.get_intersection envC8.ship_position
          ((Vec2.mk 1 0).get_rotated envC8.ship_angle) acC8.m_position
          (((Vec2.mk 1 0).get_rotated envC8.ship_angle).get_rotated
            (Real.pi / 2)) = acC8.m_position ∧
        Aircraft.calculate_landing_destination envC8 acC8 =
          envC8.ship_position - acC8.m_position) := by
  have h : Real.cos envC8.ship_angle = 0 := by
    simp [envC8, Real.cos_pi_div_two]
  exact ⟨h, intersection_degenerate_behavior envC8 acC8 h⟩

/-- C3: with a non-degenerate ship angle and an expired aircraft, the landing
destination is computed from the intersection of the ship's forward line with
the agent's forward-normal line (the point used really lies on both lines),
with the three distance-driven phase formulas. -/
theorem landing_three_phase (env : Env) (a : Aircraft)
    (hc : Real.cos env.ship_angle ≠ 0)
    (hl : a.m_live_time ≥ params.aircraft.LIVE_TIME) :
    landingPhasePost env a := by
  unfold landingPhasePost
  dsimp only
  constructor
  · have hfwd : (Vec2.mk 1 0).get_rotated env.ship_angle =
        Vec2.mk (Real.cos env.ship_angle) (Real.sin env.ship_angle) := by
      ext <;> simp [Vec2.get_rotated]
    have hnrm : ((Vec2.mk 1 0).get_rotated env.ship_angle).get_rotated
        (Real.pi / 2) =
        Vec2.mk (-(Real.sin env.ship_angle)) (Real.cos env.ship_angle) := by
      rw [hfwd]
      ext <;>
        simp [Vec2.get_rotated, Real.cos_pi_div_two, Real.sin_pi_div_two]
    have hpyth := Real.sin_sq_add_cos_sq env.ship_angle
    have hI : Aircraft.get_intersection env.ship_position
        ((Vec2.mk 1 0).get_rotated env.ship_angle) a.m_position
        (((Vec2.mk 1 0).get_rotated env.ship_angle).get_rotated (Real.pi / 2)) =
        Vec2.mk
          (a.m_position.x + -(Real.sin env.ship_angle) *
            (Real.sin env.ship_angle * (a.m_position.x - env.ship_position.x) -
              Real.cos env.ship_angle * (a.m_position.y - env.ship_position.y)))
          (a.m_position.y + Real.cos env.ship_angle *
            (Real.sin env.ship_angle * (a.m_position.x - env.ship_position.x) -
              Real.cos env.ship_angle * (a.m_position.y - env.ship_position.y))) := by
      rw [hnrm, hfwd]
      unfold Aircraft.get_intersection
      dsimp only
      have hden : (Real.sin env.ship_angle * (-(Real.sin env.ship_angle)) /
          Real.cos env.ship_angle) - Real.cos env.ship_angle =
          -(1 / Real.cos env.ship_angle) := by
        field_simp
        linear_combination -hpyth
      have hden_ne : ((Real.sin env.ship_angle * (-(Real.sin env.ship_angle)) /
          Real.cos env.ship_angle) - Real.cos env.ship_angle) ≠ 0 := by
        rw [hden]
        simp [hc]
      have hk : (a.m_position.y - env.ship_position.y -
          ((Real.sin env.ship_angle / Real.cos env.ship_angle) *
            (a.m_position.x - env.ship_position.x))) /
          ((Real.sin env.ship_angle * (-(Real.sin env.ship_angle)) /
            Real.cos env.ship_angle) - Real.cos env.ship_angle) =
          Real.sin env.ship_angle * (a.m_position.x - env.ship_position.x) -
            Real.cos env.ship_angle * (a.m_position.y - env.ship_position.y) := by
        rw [div_eq_iff hden_ne, hden]
        field_simp
        ring
      rw [hk]
    refine ⟨Real.cos env.ship_angle * (a.m_position.x - env.ship_position.x) +
        Real.sin env.ship_angle * (a.m_position.y - env.ship_position.y),
      Real.sin env.ship_angle * (a.m_position.x - env.ship_position.x) -
        Real.cos env.ship_angle * (a.m_position.y - env.ship_position.y),
      ?_, ?_⟩
    · rw [hI, hfwd]
      ext
      · simp only [Vec2.mk.injEq, Vec2.add_x, Vec2.smul_x]
        linear_combination (-(a.m_position.x - env.ship_position.x)) * hpyth
      · simp only [Vec2.mk.injEq, Vec2.add_y, Vec2.smul_y]
        linear_combination (-(a.m_position.y - env.ship_position.y)) * hpyth
    · rw [hI, hnrm]
      ext
      · simp only [Vec2.add_x, Vec2.smul_x]
        ring
      · simp only [Vec2.add_y, Vec2.smul_y]
        ring
  · unfold Aircraft.calculate_destination
    rw [if_pos hl]
    rfl

/-- Witness for C3 at a concrete expired aircraft above a horizontal ship. -/
theorem landing_three_phase_witness :
    Real.cos envC3.ship_angle ≠ 0 ∧
      acC3.m_live_time ≥ params.aircraft.LIVE_TIME ∧
      landingPhasePost envC3 acC3 := by
  have hc : Real.cos envC3.ship_angle ≠ 0 := by
    simp [envC3, Real.cos_zero]
  have hl : acC3.m_live_time ≥ params.aircraft.LIVE_TIME := by
    norm_num [acC3, params.aircraft.LIVE_TIME]
  exact ⟨hc, hl, landing_three_phase envC3 acC3 hc hl⟩

theorem processAircrafts_snd (env : Env) (dt dr : ℝ) (dv : Vec2) :
    ∀ l : List Aircraft,
      (processAircrafts env dt dr dv l).2 =
        (l.filter (fun a2 => !(Aircraft.update env dt dr dv a2).1)).length := by
  intro l
  induction l with
  | nil => rfl
  | cons a rest ih =>
    simp only [processAircrafts, List.filter_cons]
    cases h : (Aircraft.update env dt dr dv a).1 with
    | false => simp [h, ih]
    | true => simp [h, ih]

/-- C6: during `Ship::update` an aircraft is removed exactly when, at the start
of its update, its age has reached `LIVE_TIME` and it is within `SHIP_SIZE` of
the (already moved) ship; the tick's refill-timer list is the surviving old
timers followed by exactly one timer per removed aircraft, each stamped with
the ship's current (pre-increment) lifetime clock. -/
theorem removal_iff_and_refill_timers (s : GameState) (dt : ℝ) :
    (Ship.update dt s).m_aircraft_refill_timers =
        (s.m_aircraft_refill_timers.filter
            (fun t => !decide (s.m_live_time ≥ t + params.ship.REFILL_TIME))) ++
          List.replicate
            ((s.m_aircrafts.filter
                (fun a2 => !(Aircraft.update (Ship.envAfterMove dt s) dt
                    (Ship.rotationOf dt s) (Ship.shipVelocity dt s) a2).1)).length)
            s.m_live_time ∧
      ∀ a : Aircraft,
        ((Aircraft.update (Ship.envAfterMove dt s) dt (Ship.rotationOf dt s)
            (Ship.shipVelocity dt s) a).1 = false ↔
          (a.m_live_time ≥ params.aircraft.LIVE_TIME ∧
            ((Ship.envAfterMove dt s).ship_position - a.m_position).get_length ≤
              params.ship.SIZE)) := by
  constructor
  · unfold Ship.update
    dsimp only
    rw [processAircrafts_snd]
  · intro a
    unfold Aircraft.update
    by_cases h : (a.m_live_time ≥ params.aircraft.LIVE_TIME ∧
        ((Ship.envAfterMove dt s).ship_position - a.m_position).get_length ≤
          params.ship.SIZE)
    · rw [if_pos h]
      simp [h]
    · rw [if_neg h]
      simp [h]

theorem processAircrafts_length (env : Env) (dt dr : ℝ) (dv : Vec2) :
    ∀ l : List Aircraft,
      (processAircrafts env dt dr dv l).1.length +
        (processAircrafts env dt dr dv l).2 = l.length := by
  intro l
  induction l with
  | nil => rfl
  | cons a rest ih =>
    simp only [processAircrafts, List.length_cons]
    cases h : (Aircraft.update env dt dr dv a).1 <;> simp [h] <;> omega

theorem capacityCount_step_le (s : GameState) (e : Event)
    (h : capacityCount s ≤ 5) : capacityCount (step s e) ≤ 5 := by
  cases e with
  | update dt =>
    unfold capacityCount at h ⊢
    unfold step Ship.update
    dsimp only
    rw [List.length_append, List.length_replicate]
    have hp := processAircrafts_length (Ship.envAfterMove dt s) dt
      (Ship.rotationOf dt s) (Ship.shipVelocity dt s) s.m_aircrafts
    have hf := List.length_filter_le
      (fun t => !decide (s.m_live_time ≥ t + params.ship.REFILL_TIME))
      s.m_aircraft_refill_timers
    omega
  | keyPressed k => exact h
  | keyReleased k => exact h
  | mouseClicked pos b =>
    cases b with
    | true => exact h
    | false =>
      show capacityCount (Ship.mouseClicked pos false s) ≤ 5
      unfold capacityCount at h ⊢
      unfold Ship.mouseClicked
      rw [if_neg Bool.false_ne_true]
      by_cases hlt : s.m_aircrafts.length + s.m_aircraft_refill_timers.length < 5
      · rw [if_pos hlt]
        simp only [List.length_append, List.length_singleton]
        omega
      · rw [if_neg hlt]
        exact h

theorem capacityCount_run_le (events : List Event) :
    capacityCount (run events) ≤ 5 := by
  unfold run
  have hgen : ∀ s : GameState, capacityCount s ≤ 5 →
      capacityCount (events.foldl step s) ≤ 5 := by
    induction events with
    | nil => intro s hs; exact hs
    | cons e rest ih =>
      intro s hs
      exact ih _ (capacityCount_step_le s e hs)
  exact hgen initState (by norm_num [capacityCount, initState])

/-- C5: after any sequence of ticks, key events, goal commands and spawn
requests, the number of active aircraft plus pending refill timers never
exceeds 5, and a right-click spawn request creates no aircraft exactly when
that sum equals 5. -/
theorem capacity_invariant_and_rejection (events : List Event) (p : Vec2) :
    capacityCount (run events) ≤ 5 ∧
      ((Ship.mouseClicked p false (run events)).m_aircrafts.length =
          (run events).m_aircrafts.length ↔ capacityCount (run events) = 5) := by
  refine ⟨capacityCount_run_le events, ?_⟩
  have hle := capacityCount_run_le events
  unfold capacityCount at hle ⊢
  unfold Ship.mouseClicked
  rw [if_neg Bool.false_ne_true]
  by_cases h5 : (run events).m_aircrafts.length +
      (run events).m_aircraft_refill_timers.length = 5
  · rw [if_neg (by omega)]
    simp [h5]
  · have hlt : (run events).m_aircrafts.length +
        (run events).m_aircraft_refill_timers.length < 5 := by omega
    rw [if_pos hlt]
    simp only [List.length_append, List.length_singleton]
    exact iff_of_false (by omega) h5

end

end Game
